import Mathlib

/-!
Shallow embedding of the concurrent entity-extraction pipeline of
`libratom` (files `libratom/lib/entities.py`), together with proofs about
its aggregation, batching, progress-reporting and cancellation behavior.

The two functions embedded are `process_message` (the worker job function)
and `extract_entities` (the controller / aggregator).  Worker-pool
concurrency is abstracted away by feeding the controller the stream of
worker outputs in arrival order (`imap_unordered` yields results in
completion order, so arrival order is an arbitrary interleaving); a
`KeyboardInterrupt` observed by the controller is modelled as an
`interrupt` event in that stream.  The SQLAlchemy session is modelled as
explicit state: records added since the last commit are pending, a commit
atomically moves all pending records to the committed store, a rollback
discards all pending records.  Wall-clock timestamps (`datetime.utcnow()`)
are threaded in as explicit numeric arguments.  Python dictionary keys that
are only conditionally set (`entities`, `processing_end_time`) are
represented as `Option` fields, `none` meaning the key is absent.
-/

namespace LibratomSpec

/-- Attachment metadata produced by the Message Source.  Modelled from the
spec: `libratom.lib.base.AttachmentMetadata` is not under the embedded
sources; per the spec it is an opaque per-attachment payload carried
through unchanged (`attachment._asdict()` is splatted into the stored
`Attachment` row). -/
structure AttachmentMetadata where
  name : String
  mime_type : String
  file_size : Nat
deriving Repr, DecidableEq

/-- One row of the `file_report` table.  FileReports are read-only for this
core: they are only looked up by `path`, never created.  The `rid` field
stands for the database primary key and lets two rows share a `path`. -/
structure FileReport where
  rid : Nat
  path : String
deriving Repr, DecidableEq

/-- The `res` dictionary built by `process_message`.  The keys `filepath`,
`message_id`, `processing_start_time` and `attachments` are always set; the
keys `entities` and `processing_end_time` are set only on the success path,
so they are `Option` fields with `none` for an absent key. -/
structure MsgRecord where
  filepath : String
  message_id : Nat
  processing_start_time : Nat
  attachments : List AttachmentMetadata
  entities : Option (List (String × String))
  processing_end_time : Option Nat
deriving Repr, DecidableEq

/-- The analysis capability (`spacy_model`): maps a message text either to
the list of extracted `(span text, label)` pairs, or to a raised exception
carrying its `str(exc)` message (which may be the empty string, as for
`Exception()`). -/
def SpacyModel : Type := String → Except String (List (String × String))

/-- Embedding of `process_message` (`libratom/lib/entities.py`).  `t0` and
`t1` are the values of the two successive `datetime.utcnow()` readings.
The analysis call is the only fallible operation in the body; on an
exception the partially built `res` (without `entities` and without
`processing_end_time`) is returned together with `str(exc)`. -/
def process_message (filepath : String) (message_id : Nat) (message : String)
    (attachments : List AttachmentMetadata) (spacy_model : SpacyModel)
    (t0 t1 : Nat) : MsgRecord × Option String :=
  let res : MsgRecord :=
    { filepath := filepath
      message_id := message_id
      processing_start_time := t0
      attachments := attachments
      entities := none
      processing_end_time := none }
  match spacy_model message with
  | Except.ok ents =>
      ({ res with entities := some ents, processing_end_time := some t1 }, none)
  | Except.error exc => (res, some exc)

/-- A `Message` row as created by the aggregator:
`Message(pff_identifier=message_id, **res)` after `entities`, `message_id`,
`filepath` and `attachments` have been popped from `res`, followed by the
assignment `message.file_report = file_report`. -/
structure MessageRow where
  pff_identifier : Nat
  processing_start_time : Nat
  processing_end_time : Option Nat
  file_report : Option FileReport
deriving Repr, DecidableEq

/-- An `Attachment` row: `Attachment(**attachment._asdict(), message=message,
file_report=file_report)`. -/
structure AttachmentRow where
  meta : AttachmentMetadata
  message : MessageRow
  file_report : Option FileReport
deriving Repr, DecidableEq

/-- An `Entity` row: `Entity(text=entity[0], label_=entity[1],
filepath=filepath, message=message, file_report=file_report)`. -/
structure EntityRow where
  text : String
  label_ : String
  filepath : String
  message : MessageRow
  file_report : Option FileReport
deriving Repr, DecidableEq

/-- The SQLAlchemy session state.  `fileReports` is the pre-existing
read-only `file_report` table.  `session.add` / `session.add_all` append to
the pending lists; `commit` atomically moves every pending record to the
committed lists; `rollback` discards every pending record. -/
structure DbSession where
  fileReports : List FileReport
  pendingMessages : List MessageRow
  pendingAttachments : List AttachmentRow
  pendingEntities : List EntityRow
  committedMessages : List MessageRow
  committedAttachments : List AttachmentRow
  committedEntities : List EntityRow
deriving Repr, DecidableEq

/-- Commit: every record added since the previous commit or rollback
becomes durable, atomically. -/
def sessionCommit (s : DbSession) : DbSession :=
  { s with
    pendingMessages := []
    pendingAttachments := []
    pendingEntities := []
    committedMessages := s.committedMessages ++ s.pendingMessages
    committedAttachments := s.committedAttachments ++ s.pendingAttachments
    committedEntities := s.committedEntities ++ s.pendingEntities }

/-- Rollback after a failed commit: every record added since the previous
commit or rollback is discarded from the session. -/
def sessionRollback (s : DbSession) : DbSession :=
  { s with
    pendingMessages := []
    pendingAttachments := []
    pendingEntities := [] }

/-- Embedding of `session.query(FileReport).filter_by(path=filepath).one()`:
succeeds exactly when the table holds exactly one row with that path, and
otherwise raises (`NoResultFound` for zero rows, `MultipleResultsFound` for
several). -/
def queryOne (frs : List FileReport) (filepath : String) :
    Except String FileReport :=
  match frs.filter (fun fr => fr.path == filepath) with
  | [fr] => Except.ok fr
  | [] => Except.error "NoResultFound"
  | _ => Except.error "MultipleResultsFound"

/-- The tunables read from the environment by `entities.py`
(`RATOM_MSG_BATCH_SIZE`, `RATOM_DB_COMMIT_BATCH_SIZE`,
`RATOM_MSG_PROGRESS_STEP`); defaults 100, 10000 and 10.
`msg_batch_size` is the `chunksize` handed to `imap_unordered` and does not
affect the aggregator's observable behavior. -/
structure Config where
  msg_batch_size : Nat := 100
  db_commit_batch_size : Nat := 10000
  msg_progress_step : Nat := 10
deriving Repr, DecidableEq

/-- Log events emitted by the aggregator, in emission order, each carrying
the data interpolated into the corresponding `logger` call in the source. -/
inductive LogEntry where
  /-- Emitted by the info log "Skipping message ... from file ...". -/
  | infoSkipMessage (message_id : Nat) (filepath : String)
  /-- Emitted by the debug log "File: ..., message ID: ..., ...error...". -/
  | debugMessageError (filepath : String) (message_id : Nat) (error : String)
  /-- Emitted by the info log "Unable to link message id ... to a file." -/
  | infoLinkFailure (message_id : Nat) (exc : String)
  /-- Emitted by `logger.exception(exc)` on a failed `session.commit()`. -/
  | exceptionCommit
  /-- Emitted by the warning log "Cancelling running task". -/
  | warningCancel
  /-- Emitted by the info log "Partial results written to database". -/
  | infoPartialResults
  /-- Emitted by the info log "Terminating workers". -/
  | infoTerminatingWorkers
deriving Repr, DecidableEq

/-- One event observed by the controller's result loop: either the next
worker output from `imap_unordered` (in arrival order), or a
`KeyboardInterrupt` delivered to the controller. -/
inductive PoolEvent where
  | outcome (o : MsgRecord × Option String)
  | interrupt
deriving Repr, DecidableEq

/-- The controller's loop state: the session, the `new_entities` buffer,
the `msg_count` enumeration counter, plus observable traces (progress
callback invocations and log entries), a commit counter, and the oracle
deciding the success of each successive `session.commit()` call (`true` =
commit succeeds; an exhausted plan means every further commit succeeds). -/
structure LoopState where
  session : DbSession
  new_entities : List EntityRow
  msg_count : Nat
  progressCalls : List Nat
  logs : List LogEntry
  commitCount : Nat
  failPlan : List Bool
deriving Repr, DecidableEq

/-- Python truthiness of the `error` slot as used in `if error:`: `None`
and the empty string are falsy, every other string is truthy. -/
def truthy : Option String → Bool
  | none => false
  | some s => !(s == "")

/-- The batch flush at the commit threshold: `session.add_all(new_entities)`,
reset of the buffer, then `session.commit()` under `try`, with
`logger.exception` and `session.rollback()` on failure.  Consumes one entry
of the commit-success oracle. -/
def commitFlush (st : LoopState) : LoopState :=
  let staged :=
    { st.session with
      pendingEntities := st.session.pendingEntities ++ st.new_entities }
  match st.failPlan with
  | [] =>
      { st with
        session := sessionCommit staged
        new_entities := []
        commitCount := st.commitCount + 1 }
  | true :: rest =>
      { st with
        session := sessionCommit staged
        new_entities := []
        commitCount := st.commitCount + 1
        failPlan := rest }
  | false :: rest =>
      { st with
        session := sessionRollback staged
        new_entities := []
        commitCount := st.commitCount + 1
        failPlan := rest
        logs := st.logs ++ [LogEntry.exceptionCommit] }

/-- The error branch of the loop body (`if error: ... continue`): two log
lines, nothing touches the session or the entity buffer, and the `continue`
bypasses the progress update at the bottom of the loop; only the
`enumerate` counter has advanced. -/
def skipState (st : LoopState) (res : MsgRecord) (error : Option String) :
    LoopState :=
  { st with
    msg_count := st.msg_count + 1
    logs := st.logs ++
      [LogEntry.infoSkipMessage res.message_id res.filepath,
       LogEntry.debugMessageError res.filepath res.message_id
         (error.getD "")] }

/-- The `try: file_report = session.query(FileReport).filter_by(path=
filepath).one() / except: file_report = None` block, as the resulting
link value. -/
def lookupFileReport (frs : List FileReport) (filepath : String) :
    Option FileReport :=
  match queryOne frs filepath with
  | Except.ok fr => some fr
  | Except.error _ => none

/-- The info log emitted by the `except` arm of the lookup (`"Unable to
link message id ... to a file. Error: ..."`); empty when the lookup
succeeds. -/
def lookupLog (frs : List FileReport) (filepath : String)
    (message_id : Nat) : List LogEntry :=
  match queryOne frs filepath with
  | Except.ok _ => []
  | Except.error exc => [LogEntry.infoLinkFailure message_id exc]

/-- The record-building part of the success branch: the `FileReport`
lookup with its `except` fallback to `None` plus info log, the new
`Message` and its `session.add`, the `session.add_all` of the `Attachment`
rows, and the append of the `Entity` rows to the `new_entities` buffer. -/
def addRecords (st : LoopState) (res : MsgRecord)
    (entities : List (String × String)) : LoopState :=
  let message_id := res.message_id
  let filepath := res.filepath
  let attachments := res.attachments
  let file_report : Option FileReport :=
    lookupFileReport st.session.fileReports filepath
  let lookupLogs : List LogEntry :=
    lookupLog st.session.fileReports filepath message_id
  let message : MessageRow :=
    { pff_identifier := message_id
      processing_start_time := res.processing_start_time
      processing_end_time := res.processing_end_time
      file_report := file_report }
  { st with
    session :=
      { st.session with
        pendingMessages := st.session.pendingMessages ++ [message]
        pendingAttachments := st.session.pendingAttachments ++
          attachments.map (fun a =>
            { meta := a, message := message, file_report := file_report }) }
    new_entities := st.new_entities ++
      entities.map (fun e =>
        { text := e.1, label_ := e.2, filepath := filepath,
          message := message, file_report := file_report })
    msg_count := st.msg_count + 1
    logs := st.logs ++ lookupLogs }

/-- The commit-threshold check: `if len(new_entities) >=
RATOM_DB_COMMIT_BATCH_SIZE: ...` (note: the buffer can exceed the threshold
because a whole message's entities are appended before the check). -/
def maybeCommit (cfg : Config) (st : LoopState) : LoopState :=
  if cfg.db_commit_batch_size ≤ st.new_entities.length then commitFlush st
  else st

/-- The progress update at the bottom of the loop body: `if not msg_count %
MSG_PROGRESS_STEP: update_progress(MSG_PROGRESS_STEP)` (reached only on the
success path, since the error branch ends in `continue`). -/
def progressUpdate (cfg : Config) (st : LoopState) : LoopState :=
  if st.msg_count % cfg.msg_progress_step == 0 then
    { st with progressCalls := st.progressCalls ++ [cfg.msg_progress_step] }
  else st

/-- One iteration of the aggregator's `for` loop body on a worker output
`(res, error)`.  The `Except.error` result models the uncaught `KeyError`
raised by `res.pop("entities")` when the success branch is taken (the error
slot is falsy) but `res` has no `entities` key — which the `except
KeyboardInterrupt` handler does not catch. -/
def stepOutcome (cfg : Config) (st : LoopState) (res : MsgRecord)
    (error : Option String) : Except String LoopState :=
  if truthy error then Except.ok (skipState st res error)
  else
    match res.entities with
    | none => Except.error "KeyError: entities"
    | some entities =>
        Except.ok (progressUpdate cfg (maybeCommit cfg (addRecords st res entities)))

/-- Everything `extract_entities` exposes to its caller (or to an observer)
once the pool block is exited: the final session state, the trace of
progress-callback invocations, the log trace, the returned integer status,
whether the pool was terminated and joined, whether the post-loop
`session.add_all(new_entities)` staging ran, and how many `session.commit()`
calls were made. -/
structure RunResult where
  session : DbSession
  progressCalls : List Nat
  logs : List LogEntry
  returnValue : Nat
  poolTerminated : Bool
  poolJoined : Bool
  finalStagePerformed : Bool
  commitCount : Nat
deriving Repr, DecidableEq

/-- Normal completion: after the stream is exhausted the remaining
`new_entities` are staged with `session.add_all` (no commit is issued
here), the progress callback is invoked once more with
`msg_count % MSG_PROGRESS_STEP`, and `0` is returned.  Exiting the `with
multiprocessing.Pool(...)` block terminates the pool. -/
def finishRun (cfg : Config) (st : LoopState) : RunResult :=
  { session :=
      { st.session with
        pendingEntities := st.session.pendingEntities ++ st.new_entities }
    progressCalls := st.progressCalls ++ [st.msg_count % cfg.msg_progress_step]
    logs := st.logs
    returnValue := 0
    poolTerminated := true
    poolJoined := false
    finalStagePerformed := true
    commitCount := st.commitCount }

/-- The `except KeyboardInterrupt` handler: three log lines,
`pool.terminate()`, `pool.join()`, `return 1`.  The remaining buffered
entities are not staged and no final progress call is made. -/
def cancelRun (st : LoopState) : RunResult :=
  { session := st.session
    progressCalls := st.progressCalls
    logs := st.logs ++
      [LogEntry.warningCancel, LogEntry.infoPartialResults,
       LogEntry.infoTerminatingWorkers]
    returnValue := 1
    poolTerminated := true
    poolJoined := true
    finalStagePerformed := false
    commitCount := st.commitCount }

/-- The controller's result-consuming loop over the event stream. -/
def runEvents (cfg : Config) : LoopState → List PoolEvent →
    Except String RunResult
  | st, [] => Except.ok (finishRun cfg st)
  | st, PoolEvent.interrupt :: _ => Except.ok (cancelRun st)
  | st, PoolEvent.outcome o :: rest =>
      match stepOutcome cfg st o.1 o.2 with
      | Except.error e => Except.error e
      | Except.ok st' => runEvents cfg st' rest

/-- The initial loop state: `new_entities = []`, `msg_count = 0`, no
records pending or committed yet. -/
def initState (fileReports : List FileReport) (failPlan : List Bool) :
    LoopState :=
  { session :=
      { fileReports := fileReports
        pendingMessages := []
        pendingAttachments := []
        pendingEntities := []
        committedMessages := []
        committedAttachments := []
        committedEntities := [] }
    new_entities := []
    msg_count := 0
    progressCalls := []
    logs := []
    commitCount := 0
    failPlan := failPlan }

/-- Embedding of `extract_entities` (`libratom/lib/entities.py`), as a
function of the tunables, the pre-existing `file_report` table, the
commit-success oracle, and the arrival-ordered stream of pool events.
An `Except.error` result models an exception other than
`KeyboardInterrupt` propagating out of the function. -/
def extract_entities (cfg : Config) (fileReports : List FileReport)
    (failPlan : List Bool) (events : List PoolEvent) :
    Except String RunResult :=
  runEvents cfg (initState fileReports failPlan) events

/-- Well-formedness of a worker output, as guaranteed by `process_message`:
the `entities` key is present exactly when the error slot is `None`. -/
def WFOutcome (o : MsgRecord × Option String) : Prop :=
  o.1.entities.isSome ↔ o.2 = none

instance (o : MsgRecord × Option String) : Decidable (WFOutcome o) := by
  unfold WFOutcome; infer_instance

/-- The spec-side count of entity pairs over a stream of worker outputs:
the sum, over the outputs whose error slot is `None` (the successfully
analyzed messages), of the number of `(span text, label)` pairs each
produced. -/
def totalEntityPairs (outs : List (MsgRecord × Option String)) : Nat :=
  (outs.map (fun o =>
    match o.2 with
    | none => (o.1.entities.getD []).length
    | some _ => 0)).sum

/-- The in-loop progress invocations the code actually makes, predicted
from the output stream: starting the enumeration at `i`, an output at
1-based position `m` contributes one invocation with increment `S` exactly
when `m` is a multiple of `S` and the output was not error-skipped (the
`continue` in the error branch bypasses the progress update). -/
def expectedProgressTrace (S : Nat) : Nat → List (MsgRecord × Option String)
    → List Nat
  | _, [] => []
  | i, o :: rest =>
      if truthy o.2 then expectedProgressTrace S (i + 1) rest
      else
        (if (i + 1) % S == 0 then [S] else []) ++
          expectedProgressTrace S (i + 1) rest

section SanityChecks

/-- A successful worker output with the given entities. -/
def okOutcome (fp : String) (mid : Nat) (ents : List (String × String)) :
    MsgRecord × Option String :=
  ({ filepath := fp, message_id := mid, processing_start_time := 0,
     attachments := [], entities := some ents,
     processing_end_time := some 1 }, none)

/-- An error-tagged worker output. -/
def errOutcome (fp : String) (mid : Nat) (e : String) :
    MsgRecord × Option String :=
  ({ filepath := fp, message_id := mid, processing_start_time := 0,
     attachments := [], entities := none, processing_end_time := none },
   some e)

/-- A small configuration used in concrete witnesses and counterexamples:
commit threshold 2, progress step 2. -/
def cfg22 : Config :=
  { msg_batch_size := 100, db_commit_batch_size := 2, msg_progress_step := 2 }

end SanityChecks

section Helpers

theorem commitFlush_msg_count (st : LoopState) :
    (commitFlush st).msg_count = st.msg_count := by
  rcases hp : st.failPlan with _ | ⟨_ | _, rest⟩ <;> simp [commitFlush, hp]

theorem commitFlush_progressCalls (st : LoopState) :
    (commitFlush st).progressCalls = st.progressCalls := by
  rcases hp : st.failPlan with _ | ⟨_ | _, rest⟩ <;> simp [commitFlush, hp]

theorem commitFlush_new_entities (st : LoopState) :
    (commitFlush st).new_entities = [] := by
  rcases hp : st.failPlan with _ | ⟨_ | _, rest⟩ <;> simp [commitFlush, hp]

theorem commitFlush_commitCount (st : LoopState) :
    (commitFlush st).commitCount = st.commitCount + 1 := by
  rcases hp : st.failPlan with _ | ⟨_ | _, rest⟩ <;> simp [commitFlush, hp]

theorem maybeCommit_msg_count (cfg : Config) (st : LoopState) :
    (maybeCommit cfg st).msg_count = st.msg_count := by
  unfold maybeCommit
  split
  · exact commitFlush_msg_count st
  · rfl

theorem maybeCommit_progressCalls (cfg : Config) (st : LoopState) :
    (maybeCommit cfg st).progressCalls = st.progressCalls := by
  unfold maybeCommit
  split
  · exact commitFlush_progressCalls st
  · rfl

theorem progressUpdate_msg_count (cfg : Config) (st : LoopState) :
    (progressUpdate cfg st).msg_count = st.msg_count := by
  unfold progressUpdate
  split <;> rfl

theorem progressUpdate_progressCalls (cfg : Config) (st : LoopState) :
    (progressUpdate cfg st).progressCalls = st.progressCalls ++
      (if st.msg_count % cfg.msg_progress_step == 0 then
        [cfg.msg_progress_step] else []) := by
  unfold progressUpdate
  split
  · simp_all
  · simp_all

theorem addRecords_msg_count (st : LoopState) (res : MsgRecord)
    (entities : List (String × String)) :
    (addRecords st res entities).msg_count = st.msg_count + 1 := by
  simp [addRecords]

theorem addRecords_progressCalls (st : LoopState) (res : MsgRecord)
    (entities : List (String × String)) :
    (addRecords st res entities).progressCalls = st.progressCalls := by
  simp [addRecords]

theorem stepOutcome_ok_msg_count {cfg : Config} {st : LoopState}
    {res : MsgRecord} {error : Option String} {st' : LoopState}
    (h : stepOutcome cfg st res error = Except.ok st') :
    st'.msg_count = st.msg_count + 1 := by
  unfold stepOutcome at h
  split at h
  · injection h with h
    subst h
    simp [skipState]
  · split at h
    · exact absurd h (by simp)
    · injection h with h
      subst h
      rw [progressUpdate_msg_count, maybeCommit_msg_count,
        addRecords_msg_count]

theorem stepOutcome_ok_progressCalls {cfg : Config} {st : LoopState}
    {res : MsgRecord} {error : Option String} {st' : LoopState}
    (h : stepOutcome cfg st res error = Except.ok st') :
    st'.progressCalls = st.progressCalls ++
      (if truthy error then
        ([] : List Nat)
       else if (st.msg_count + 1) % cfg.msg_progress_step == 0 then
        [cfg.msg_progress_step]
       else []) := by
  unfold stepOutcome at h
  split at h
  · injection h with h
    subst h
    simp_all [skipState]
  · split at h
    · exact absurd h (by simp)
    · injection h with h
      subst h
      rw [progressUpdate_progressCalls, maybeCommit_progressCalls,
        addRecords_progressCalls, maybeCommit_msg_count, addRecords_msg_count]
      simp_all

theorem expectedProgressTrace_cons (S i : Nat)
    (o : MsgRecord × Option String) (rest : List (MsgRecord × Option String)) :
    expectedProgressTrace S i (o :: rest) =
      (if truthy o.2 then ([] : List Nat)
       else if (i + 1) % S == 0 then [S] else []) ++
        expectedProgressTrace S (i + 1) rest := by
  by_cases htr : truthy o.2 <;> simp [expectedProgressTrace, htr]

/-- Run-level invariant: on a fully drained outcome stream the observed
progress trace is the initial trace, followed by the in-loop invocations
predicted by `expectedProgressTrace`, followed by the single final
invocation with the remainder `msg_count % MSG_PROGRESS_STEP`. -/
theorem runEvents_outcomes_progress (cfg : Config)
    (outs : List (MsgRecord × Option String)) :
    ∀ (st : LoopState) (r : RunResult),
      runEvents cfg st (outs.map PoolEvent.outcome) = Except.ok r →
      r.progressCalls = st.progressCalls ++
        expectedProgressTrace cfg.msg_progress_step st.msg_count outs ++
        [(st.msg_count + outs.length) % cfg.msg_progress_step] := by
  induction outs with
  | nil =>
      intro st r h
      simp only [List.map_nil, runEvents, Except.ok.injEq] at h
      subst h
      simp [finishRun, expectedProgressTrace]
  | cons o rest ih =>
      intro st r h
      simp only [List.map_cons, runEvents] at h
      rcases hstep : stepOutcome cfg st o.1 o.2 with e | st'
      · rw [hstep] at h
        exact absurd h (by simp)
      · rw [hstep] at h
        simp only [] at h
        have hpc := ih st' r h
        rw [hpc, stepOutcome_ok_progressCalls hstep,
          stepOutcome_ok_msg_count hstep, expectedProgressTrace_cons]
        have harith : st.msg_count + 1 + rest.length =
            st.msg_count + (rest.length + 1) := by omega
        simp [harith, List.append_assoc]

/-- Run-level fact: normal completion (a fully drained outcome stream)
returns status `0` and performs the post-loop staging of the remaining
buffered entities. -/
theorem runEvents_outcomes_status (cfg : Config)
    (outs : List (MsgRecord × Option String)) :
    ∀ (st : LoopState) (r : RunResult),
      runEvents cfg st (outs.map PoolEvent.outcome) = Except.ok r →
      r.returnValue = 0 ∧ r.finalStagePerformed = true := by
  induction outs with
  | nil =>
      intro st r h
      simp only [List.map_nil, runEvents, Except.ok.injEq] at h
      subst h
      simp [finishRun]
  | cons o rest ih =>
      intro st r h
      simp only [List.map_cons, runEvents] at h
      rcases hstep : stepOutcome cfg st o.1 o.2 with e | st'
      · rw [hstep] at h
        exact absurd h (by simp)
      · rw [hstep] at h
        exact ih st' r h

/-- Run-level fact: if the controller observes the interrupt after
consuming some prefix of outcomes, it returns status `1`, terminates and
joins the pool, and skips the final staging of buffered entities. -/
theorem runEvents_interrupt_status (cfg : Config)
    (outs : List (MsgRecord × Option String)) :
    ∀ (st : LoopState) (post : List PoolEvent) (r : RunResult),
      runEvents cfg st
        (outs.map PoolEvent.outcome ++ PoolEvent.interrupt :: post) =
        Except.ok r →
      r.returnValue = 1 ∧ r.poolTerminated = true ∧ r.poolJoined = true ∧
        r.finalStagePerformed = false := by
  induction outs with
  | nil =>
      intro st post r h
      simp only [List.map_nil, List.nil_append, runEvents,
        Except.ok.injEq] at h
      subst h
      simp [cancelRun]
  | cons o rest ih =>
      intro st post r h
      simp only [List.map_cons, List.cons_append, runEvents] at h
      rcases hstep : stepOutcome cfg st o.1 o.2 with e | st'
      · rw [hstep] at h
        exact absurd h (by simp)
      · rw [hstep] at h
        exact ih st' post r h

/-- The total number of entity rows held by the loop state: committed,
staged-pending, or still in the `new_entities` buffer. -/
def entityTally (st : LoopState) : Nat :=
  st.session.committedEntities.length + st.session.pendingEntities.length +
    st.new_entities.length

/-- The number of entity rows actually appended to the buffer over a
stream of worker outputs: error-skipped outputs (truthy error slot)
contribute nothing; processed outputs contribute one row per extracted
pair. -/
def processedEntitySum (outs : List (MsgRecord × Option String)) : Nat :=
  (outs.map (fun o =>
    if truthy o.2 then 0 else (o.1.entities.getD []).length)).sum

theorem commitFlush_plan_true {st : LoopState}
    (hplan : ∀ b ∈ st.failPlan, b = true) :
    ∀ b ∈ (commitFlush st).failPlan, b = true := by
  rcases hp : st.failPlan with _ | ⟨b, rest⟩
  · simp [commitFlush, hp]
  · have hb : b = true := hplan b (by rw [hp]; exact List.mem_cons_self b rest)
    subst hb
    intro x hx
    have hxr : x ∈ rest := by simpa [commitFlush, hp] using hx
    exact hplan x (by rw [hp]; exact List.mem_cons_of_mem _ hxr)

theorem commitFlush_entityTally {st : LoopState}
    (hplan : ∀ b ∈ st.failPlan, b = true) :
    entityTally (commitFlush st) = entityTally st := by
  rcases hp : st.failPlan with _ | ⟨b, rest⟩
  · simp [commitFlush, hp, entityTally, sessionCommit]
    omega
  · have hb : b = true := hplan b (by rw [hp]; exact List.mem_cons_self b rest)
    subst hb
    simp [commitFlush, hp, entityTally, sessionCommit]
    omega

theorem progressUpdate_session (cfg : Config) (st : LoopState) :
    (progressUpdate cfg st).session = st.session := by
  unfold progressUpdate; split <;> rfl

theorem progressUpdate_new_entities (cfg : Config) (st : LoopState) :
    (progressUpdate cfg st).new_entities = st.new_entities := by
  unfold progressUpdate; split <;> rfl

theorem progressUpdate_commitCount (cfg : Config) (st : LoopState) :
    (progressUpdate cfg st).commitCount = st.commitCount := by
  unfold progressUpdate; split <;> rfl

theorem progressUpdate_failPlan (cfg : Config) (st : LoopState) :
    (progressUpdate cfg st).failPlan = st.failPlan := by
  unfold progressUpdate; split <;> rfl

theorem progressUpdate_logs (cfg : Config) (st : LoopState) :
    (progressUpdate cfg st).logs = st.logs := by
  unfold progressUpdate; split <;> rfl

theorem progressUpdate_entityTally (cfg : Config) (st : LoopState) :
    entityTally (progressUpdate cfg st) = entityTally st := by
  simp [entityTally, progressUpdate_session, progressUpdate_new_entities]

theorem addRecords_entityTally (st : LoopState) (res : MsgRecord)
    (entities : List (String × String)) :
    entityTally (addRecords st res entities) =
      entityTally st + entities.length := by
  simp [entityTally, addRecords]
  omega

theorem addRecords_failPlan (st : LoopState) (res : MsgRecord)
    (entities : List (String × String)) :
    (addRecords st res entities).failPlan = st.failPlan := by
  simp [addRecords]

theorem maybeCommit_entityTally {cfg : Config} {st : LoopState}
    (hplan : ∀ b ∈ st.failPlan, b = true) :
    entityTally (maybeCommit cfg st) = entityTally st := by
  unfold maybeCommit
  split
  · exact commitFlush_entityTally hplan
  · rfl

theorem maybeCommit_plan_true {cfg : Config} {st : LoopState}
    (hplan : ∀ b ∈ st.failPlan, b = true) :
    ∀ b ∈ (maybeCommit cfg st).failPlan, b = true := by
  unfold maybeCommit
  split
  · exact commitFlush_plan_true hplan
  · exact hplan

theorem stepOutcome_ok_entityTally {cfg : Config} {st : LoopState}
    {res : MsgRecord} {error : Option String} {st' : LoopState}
    (hplan : ∀ b ∈ st.failPlan, b = true)
    (h : stepOutcome cfg st res error = Except.ok st') :
    entityTally st' = entityTally st +
      (if truthy error then 0 else (res.entities.getD []).length) := by
  unfold stepOutcome at h
  split at h
  · injection h with h
    subst h
    simp_all [skipState, entityTally]
  · rename_i herr
    split at h
    · exact absurd h (by simp)
    · rename_i es hes
      injection h with h
      subst h
      rw [progressUpdate_entityTally,
        maybeCommit_entityTally (by rw [addRecords_failPlan]; exact hplan),
        addRecords_entityTally]
      simp [hes, herr]

theorem stepOutcome_ok_plan_true {cfg : Config} {st : LoopState}
    {res : MsgRecord} {error : Option String} {st' : LoopState}
    (hplan : ∀ b ∈ st.failPlan, b = true)
    (h : stepOutcome cfg st res error = Except.ok st') :
    ∀ b ∈ st'.failPlan, b = true := by
  unfold stepOutcome at h
  split at h
  · injection h with h
    subst h
    simpa [skipState] using hplan
  · split at h
    · exact absurd h (by simp)
    · injection h with h
      subst h
      rw [progressUpdate_failPlan]
      exact maybeCommit_plan_true (by rw [addRecords_failPlan]; exact hplan)

/-- Run-level entity conservation: with every commit succeeding, the
committed-plus-pending entity rows after a fully drained stream equal the
initial tally plus one row per extracted pair over the processed
outputs. -/
theorem runEvents_outcomes_tally (cfg : Config)
    (outs : List (MsgRecord × Option String)) :
    ∀ (st : LoopState) (r : RunResult),
      (∀ b ∈ st.failPlan, b = true) →
      runEvents cfg st (outs.map PoolEvent.outcome) = Except.ok r →
      r.session.committedEntities.length + r.session.pendingEntities.length =
        entityTally st + processedEntitySum outs := by
  induction outs with
  | nil =>
      intro st r _ h
      simp only [List.map_nil, runEvents, Except.ok.injEq] at h
      subst h
      simp [finishRun, entityTally, processedEntitySum]
      omega
  | cons o rest ih =>
      intro st r hplan h
      simp only [List.map_cons, runEvents] at h
      rcases hstep : stepOutcome cfg st o.1 o.2 with e | st'
      · rw [hstep] at h
        exact absurd h (by simp)
      · rw [hstep] at h
        have := ih st' r (stepOutcome_ok_plan_true hplan hstep) h
        rw [this, stepOutcome_ok_entityTally hplan hstep]
        simp [processedEntitySum]
        omega

/-- Invariant maintained between iterations when the commit threshold `B`
is positive: entity rows are never left pending across iterations (each
flush commits or rolls back immediately after staging), the buffer stays
strictly below the threshold at iteration boundaries, each of the
`commitCount` commits so far accounted for at least `B` committed entity
rows, and no entity row is committed before the first commit. -/
def BatchInv (B : Nat) (st : LoopState) : Prop :=
  st.session.pendingEntities = [] ∧
  st.new_entities.length < B ∧
  B * st.commitCount ≤ st.session.committedEntities.length ∧
  (st.commitCount = 0 → st.session.committedEntities.length = 0)

theorem addRecords_pendingEntities (st : LoopState) (res : MsgRecord)
    (entities : List (String × String)) :
    (addRecords st res entities).session.pendingEntities =
      st.session.pendingEntities := by
  simp [addRecords]

theorem addRecords_committedEntities (st : LoopState) (res : MsgRecord)
    (entities : List (String × String)) :
    (addRecords st res entities).session.committedEntities =
      st.session.committedEntities := by
  simp [addRecords]

theorem addRecords_commitCount (st : LoopState) (res : MsgRecord)
    (entities : List (String × String)) :
    (addRecords st res entities).commitCount = st.commitCount := by
  simp [addRecords]

theorem addRecords_new_entities_length (st : LoopState) (res : MsgRecord)
    (entities : List (String × String)) :
    (addRecords st res entities).new_entities.length =
      st.new_entities.length + entities.length := by
  simp [addRecords]

theorem commitFlush_BatchInv {B : Nat} {st : LoopState} (hB : 0 < B)
    (hplan : ∀ b ∈ st.failPlan, b = true)
    (hpend : st.session.pendingEntities = [])
    (hbuf : B ≤ st.new_entities.length)
    (hc : B * st.commitCount ≤ st.session.committedEntities.length) :
    BatchInv B (commitFlush st) := by
  have hkey : ∀ (s : DbSession) (c : Nat),
      s = sessionCommit
        { st.session with
          pendingEntities := st.session.pendingEntities ++ st.new_entities } →
      c = st.commitCount + 1 →
      s.pendingEntities = [] ∧ ([] : List EntityRow).length < B ∧
        B * c ≤ s.committedEntities.length ∧
        (c = 0 → s.committedEntities.length = 0) := by
    intro s c hs hcEq
    subst hs hcEq
    refine ⟨rfl, by simpa using hB, ?_, by simp⟩
    simp only [sessionCommit, hpend, List.nil_append, List.length_append,
      Nat.mul_succ]
    exact Nat.add_le_add hc hbuf
  rcases hp : st.failPlan with _ | ⟨b, rest⟩
  · have := hkey _ _ rfl rfl
    simpa [BatchInv, commitFlush, hp] using this
  · have hb : b = true := hplan b (by rw [hp]; exact List.mem_cons_self b rest)
    subst hb
    have := hkey _ _ rfl rfl
    simpa [BatchInv, commitFlush, hp] using this

theorem maybeCommit_BatchInv {cfg : Config} {st : LoopState}
    (hB : 0 < cfg.db_commit_batch_size)
    (hplan : ∀ b ∈ st.failPlan, b = true)
    (hpend : st.session.pendingEntities = [])
    (hc : cfg.db_commit_batch_size * st.commitCount ≤
      st.session.committedEntities.length)
    (hc0 : st.commitCount = 0 → st.session.committedEntities.length = 0) :
    BatchInv cfg.db_commit_batch_size (maybeCommit cfg st) := by
  unfold maybeCommit
  split
  · rename_i hbuf
    exact commitFlush_BatchInv hB hplan hpend hbuf hc
  · rename_i hbuf
    exact ⟨hpend, Nat.lt_of_not_le (fun hle => hbuf hle), hc, hc0⟩

theorem progressUpdate_BatchInv {cfg : Config} {B : Nat} {st : LoopState}
    (h : BatchInv B st) : BatchInv B (progressUpdate cfg st) := by
  unfold BatchInv at h ⊢
  rw [progressUpdate_session, progressUpdate_new_entities,
    progressUpdate_commitCount]
  exact h

theorem stepOutcome_ok_BatchInv {cfg : Config} {st : LoopState}
    {res : MsgRecord} {error : Option String} {st' : LoopState}
    (hB : 0 < cfg.db_commit_batch_size)
    (hplan : ∀ b ∈ st.failPlan, b = true)
    (hinv : BatchInv cfg.db_commit_batch_size st)
    (h : stepOutcome cfg st res error = Except.ok st') :
    BatchInv cfg.db_commit_batch_size st' := by
  obtain ⟨hpend, hbuf, hc, hc0⟩ := hinv
  unfold stepOutcome at h
  split at h
  · injection h with h
    subst h
    exact ⟨by simpa [skipState] using hpend, by simpa [skipState] using hbuf,
      by simpa [skipState] using hc, by simpa [skipState] using hc0⟩
  · split at h
    · exact absurd h (by simp)
    · rename_i es hes
      injection h with h
      subst h
      refine progressUpdate_BatchInv (maybeCommit_BatchInv hB ?_ ?_ ?_ ?_)
      · rw [addRecords_failPlan]; exact hplan
      · rw [addRecords_pendingEntities]; exact hpend
      · rw [addRecords_committedEntities, addRecords_commitCount]; exact hc
      · rw [addRecords_committedEntities, addRecords_commitCount]; exact hc0

/-- Run-level batching facts: starting from a state satisfying the batch
invariant and an all-success commit plan, after a fully drained stream each
of the `commitCount` commits accounted for at least `B` committed entity
rows, nothing is committed when no commit ever fired, and the entity rows
staged by the post-loop `add_all` number strictly fewer than `B`. -/
theorem runEvents_outcomes_batch (cfg : Config)
    (outs : List (MsgRecord × Option String)) :
    ∀ (st : LoopState) (r : RunResult),
      0 < cfg.db_commit_batch_size →
      (∀ b ∈ st.failPlan, b = true) →
      BatchInv cfg.db_commit_batch_size st →
      runEvents cfg st (outs.map PoolEvent.outcome) = Except.ok r →
      cfg.db_commit_batch_size * r.commitCount ≤
          r.session.committedEntities.length ∧
        (r.commitCount = 0 → r.session.committedEntities.length = 0) ∧
        r.session.pendingEntities.length < cfg.db_commit_batch_size := by
  induction outs with
  | nil =>
      intro st r hB hplan hinv h
      obtain ⟨hpend, hbuf, hc, hc0⟩ := hinv
      simp only [List.map_nil, runEvents, Except.ok.injEq] at h
      subst h
      refine ⟨by simpa [finishRun] using hc, by simpa [finishRun] using hc0, ?_⟩
      simpa [finishRun, hpend] using hbuf
  | cons o rest ih =>
      intro st r hB hplan hinv h
      simp only [List.map_cons, runEvents] at h
      rcases hstep : stepOutcome cfg st o.1 o.2 with e | st'
      · rw [hstep] at h
        exact absurd h (by simp)
      · rw [hstep] at h
        exact ih st' r hB (stepOutcome_ok_plan_true hplan hstep)
          (stepOutcome_ok_BatchInv hB hplan hinv hstep) h

/-- Over well-formed worker outputs (as `process_message` produces them),
the rows actually buffered coincide with the spec-side sum over the
outputs whose error slot is `None`: a truthy error contributes nothing to
either side, and a falsy-but-set error (`some ""`) has no `entities` key,
so it contributes nothing to either side as well. -/
theorem processedEntitySum_eq_totalEntityPairs
    (outs : List (MsgRecord × Option String))
    (hwf : ∀ o ∈ outs, WFOutcome o) :
    processedEntitySum outs = totalEntityPairs outs := by
  induction outs with
  | nil => rfl
  | cons o rest ih =>
      have hwo : WFOutcome o := hwf o (List.mem_cons_self o rest)
      have hrest := ih (fun x hx => hwf x (List.mem_cons_of_mem o hx))
      have hhead : (if truthy o.2 then 0 else (o.1.entities.getD []).length) =
          (match o.2 with
           | none => (o.1.entities.getD []).length
           | some _ => 0) := by
        rcases he : o.2 with _ | s
        · simp [truthy]
        · by_cases hs : s = ""
          · subst hs
            have hnone : o.1.entities = none := by
              unfold WFOutcome at hwo
              rw [he] at hwo
              rcases hent : o.1.entities with _ | es
              · rfl
              · exact absurd (hwo.mp (by rw [hent]; rfl)) (by simp)
            simp [truthy, hnone]
          · simp [truthy, hs]
      simp only [processedEntitySum, totalEntityPairs, List.map_cons,
        List.sum_cons] at hrest ⊢
      rw [hhead, hrest]

end Helpers

section Claims

/-- Claim C2, counterexample: `process_message` converts a raised exception
into `str(exc)`, and for an exception whose string representation is empty
(such as `Exception()`), the returned error slot is the *empty* string —
not a non-empty one as claimed.  (Downstream, `if error:` treats it as
falsy.) -/
theorem process_message_empty_error_counterexample :
    (process_message "a.pst" 1 "msg" [] (fun _ => Except.error "") 0 1).2 =
      some "" ∧ ("" : String).length = 0 :=
  ⟨rfl, rfl⟩

/-- Claim C2 (amended): `process_message` always returns a `(record,
error)` pair and never propagates the analysis exception; whenever the
analysis call raises, the error slot is set to the exception's string
representation (which may be empty), and the record carries only the four
unconditionally-set keys. -/
theorem process_message_error_slot (filepath : String) (message_id : Nat)
    (message : String) (attachments : List AttachmentMetadata)
    (spacy_model : SpacyModel) (t0 t1 : Nat) (e : String)
    (h : spacy_model message = Except.error e) :
    process_message filepath message_id message attachments spacy_model
        t0 t1 =
      ({ filepath := filepath, message_id := message_id,
         processing_start_time := t0, attachments := attachments,
         entities := none, processing_end_time := none }, some e) := by
  simp [process_message, h]

/-- Witness for the amended C2 at a concrete raising model. -/
theorem process_message_error_slot_witness :
    ((fun _ => Except.error "boom" : SpacyModel) "msg" =
      Except.error "boom") ∧
    process_message "a.pst" 1 "msg" [] (fun _ => Except.error "boom") 0 1 =
      ({ filepath := "a.pst", message_id := 1, processing_start_time := 0,
         attachments := [], entities := none, processing_end_time := none },
       some "boom") :=
  ⟨rfl, process_message_error_slot "a.pst" 1 "msg" []
    (fun _ => Except.error "boom") 0 1 "boom" rfl⟩

/-- Claim C9: the record returned by `process_message` always contains the
keys `filepath`, `message_id`, `processing_start_time` and `attachments`
(with the input values), and it contains the `entities` and
`processing_end_time` keys exactly when the error slot is `None` — in
particular, neither key is present when the analysis call raises. -/
theorem process_message_record_keys (filepath : String) (message_id : Nat)
    (message : String) (attachments : List AttachmentMetadata)
    (spacy_model : SpacyModel) (t0 t1 : Nat) :
    (process_message filepath message_id message attachments spacy_model
        t0 t1).1.filepath = filepath ∧
    (process_message filepath message_id message attachments spacy_model
        t0 t1).1.message_id = message_id ∧
    (process_message filepath message_id message attachments spacy_model
        t0 t1).1.processing_start_time = t0 ∧
    (process_message filepath message_id message attachments spacy_model
        t0 t1).1.attachments = attachments ∧
    ((process_message filepath message_id message attachments spacy_model
        t0 t1).1.entities.isSome ↔
      (process_message filepath message_id message attachments spacy_model
        t0 t1).2 = none) ∧
    ((process_message filepath message_id message attachments spacy_model
        t0 t1).1.processing_end_time.isSome ↔
      (process_message filepath message_id message attachments spacy_model
        t0 t1).2 = none) := by
  rcases h : spacy_model message with e | ents <;> simp [process_message, h]

/-- Claim C1, counterexample: a fully drained run with one successful
message carrying one entity and a commit threshold above one stages the
entity with `session.add_all` but never commits it inside
`extract_entities` (there is no `session.commit()` after the loop), so the
number of *persisted* (committed) Entity rows is `0`, not the claimed sum
`1`. -/
theorem extract_entities_no_final_commit_counterexample :
    ((extract_entities cfg22 [] []
        [PoolEvent.outcome (okOutcome "a" 1 [("x", "PER")])]).toOption.map
      (fun r => (r.session.committedEntities.length,
                 r.session.pendingEntities.length, r.returnValue))) =
      some (0, 1, 0) ∧
    totalEntityPairs [okOutcome "a" 1 [("x", "PER")]] = 1 ∧
    (0 : Nat) ≠ 1 :=
  ⟨by decide, by decide, by decide⟩

/-- Claim C1 (amended): after the outcome stream is fully drained the
aggregator stages all remaining buffered entities with `session.add_all`
(it does not itself issue a final commit — that is left to the session's
owner), and, absent commit failures, the number of Entity rows in the
session — committed plus staged-pending — equals the sum, over all
successfully analyzed messages, of the number of (span text, label) pairs
each produced. -/
theorem extract_entities_entity_conservation (cfg : Config)
    (frs : List FileReport) (plan : List Bool)
    (outs : List (MsgRecord × Option String)) (r : RunResult)
    (hwf : ∀ o ∈ outs, WFOutcome o)
    (hplan : ∀ b ∈ plan, b = true)
    (h : extract_entities cfg frs plan (outs.map PoolEvent.outcome) =
      Except.ok r) :
    r.finalStagePerformed = true ∧
    r.session.committedEntities.length + r.session.pendingEntities.length =
      totalEntityPairs outs := by
  refine ⟨(runEvents_outcomes_status cfg outs _ r h).2, ?_⟩
  have htally := runEvents_outcomes_tally cfg outs (initState frs plan) r
    (by simpa [initState] using hplan) h
  rw [htally, processedEntitySum_eq_totalEntityPairs outs hwf]
  simp [initState, entityTally]

/-- Witness for the amended C1: two successful messages with one entity
each at threshold 2 — both entities are committed by the in-loop flush and
the tally matches. -/
theorem extract_entities_entity_conservation_witness :
    ((extract_entities cfg22 [] []
        ([okOutcome "a" 1 [("x", "PER")], okOutcome "b" 2 [("y", "ORG")]].map
          PoolEvent.outcome)).toOption.map
      (fun r => (r.finalStagePerformed,
        r.session.committedEntities.length +
          r.session.pendingEntities.length))) =
      some (true, totalEntityPairs
        [okOutcome "a" 1 [("x", "PER")], okOutcome "b" 2 [("y", "ORG")]]) := by
  rcases hr : extract_entities cfg22 [] []
      ([okOutcome "a" 1 [("x", "PER")], okOutcome "b" 2 [("y", "ORG")]].map
        PoolEvent.outcome) with e | r
  · have hok : (extract_entities cfg22 [] []
        ([okOutcome "a" 1 [("x", "PER")], okOutcome "b" 2 [("y", "ORG")]].map
          PoolEvent.outcome)).toOption.isSome = true := by decide
    rw [hr] at hok
    simp [Except.toOption] at hok
  · have hc := extract_entities_entity_conservation cfg22 [] []
      [okOutcome "a" 1 [("x", "PER")], okOutcome "b" 2 [("y", "ORG")]] r
      (by decide) (by simp) hr
    simp [Except.toOption, hc.1, hc.2]

/-- Claim C3, counterexample: with progress step 2 and two outcomes, the
second of which is error-tagged, the claim predicts ⌊2/2⌋ = 1 in-loop
invocation with increment 2 plus a final invocation with 0, i.e. the trace
`[2, 0]`; but the error branch's `continue` bypasses the in-loop progress
update, so the code produces only `[0]`. -/
theorem progress_cadence_counterexample :
    ((extract_entities cfg22 [] []
        [PoolEvent.outcome (okOutcome "a" 1 []),
         PoolEvent.outcome (errOutcome "a" 2 "boom")]).toOption.map
      RunResult.progressCalls) = some [0] ∧
    List.replicate (2 / 2) 2 ++ [2 % 2] = ([2, 0] : List Nat) ∧
    ([0] : List Nat) ≠ [2, 0] :=
  ⟨by decide, by decide, by decide⟩

/-- Claim C3 (amended): with progress step S, the in-loop invocations have
increment S and occur exactly at those outcomes whose 1-based arrival
position is a multiple of S *and* which are not error-tagged (error-skipped
outcomes advance the counter but bypass the in-loop progress update); after
the stream is exhausted there is exactly one final invocation with
increment M mod S, where M counts all outcomes, successes and errors
alike. -/
theorem progress_cadence (cfg : Config) (frs : List FileReport)
    (plan : List Bool) (outs : List (MsgRecord × Option String))
    (r : RunResult) (_hS : 0 < cfg.msg_progress_step)
    (h : extract_entities cfg frs plan (outs.map PoolEvent.outcome) =
      Except.ok r) :
    r.progressCalls =
      expectedProgressTrace cfg.msg_progress_step 0 outs ++
        [outs.length % cfg.msg_progress_step] := by
  have htr := runEvents_outcomes_progress cfg outs (initState frs plan) r h
  simpa [initState] using htr

/-- Witness for the amended C3 on a four-outcome stream with one error at
position 2 and step 2: the in-loop trace is `[2]` (the tick at position 2
is lost), the final call is `4 mod 2 = 0`. -/
theorem progress_cadence_witness :
    ((extract_entities cfg22 [] []
        ([okOutcome "a" 1 [], errOutcome "a" 2 "boom", okOutcome "a" 3 [],
          okOutcome "a" 4 []].map PoolEvent.outcome)).toOption.map
      RunResult.progressCalls) =
      some (expectedProgressTrace 2 0
        [okOutcome "a" 1 [], errOutcome "a" 2 "boom", okOutcome "a" 3 [],
          okOutcome "a" 4 []] ++ [4 % 2]) := by
  rcases hr : extract_entities cfg22 [] []
      ([okOutcome "a" 1 [], errOutcome "a" 2 "boom", okOutcome "a" 3 [],
        okOutcome "a" 4 []].map PoolEvent.outcome) with e | r
  · have hok : (extract_entities cfg22 [] []
        ([okOutcome "a" 1 [], errOutcome "a" 2 "boom", okOutcome "a" 3 [],
          okOutcome "a" 4 []].map PoolEvent.outcome)).toOption.isSome =
        true := by decide
    rw [hr] at hok
    simp [Except.toOption] at hok
  · have hc := progress_cadence cfg22 [] []
      [okOutcome "a" 1 [], errOutcome "a" 2 "boom", okOutcome "a" 3 [],
        okOutcome "a" 4 []] r (by decide) hr
    have hmap : Option.map RunResult.progressCalls
        (@Except.toOption String RunResult (Except.ok r)) =
        some r.progressCalls := rfl
    rw [hmap, hc]
    rfl

/-- Claim C10: when the total outcome count M is an exact multiple of the
progress step S the final invocation after the loop has increment
`M mod S = 0`; in particular, on an empty stream the callback is invoked
exactly once, with increment 0, and `extract_entities` returns 0. -/
theorem progress_remainder_zero :
    (∀ (cfg : Config) (frs : List FileReport) (plan : List Bool)
        (outs : List (MsgRecord × Option String)) (r : RunResult),
      0 < cfg.msg_progress_step →
      extract_entities cfg frs plan (outs.map PoolEvent.outcome) =
        Except.ok r →
      outs.length % cfg.msg_progress_step = 0 →
      r.progressCalls.getLast? = some 0) ∧
    (∀ (cfg : Config) (frs : List FileReport) (plan : List Bool),
      0 < cfg.msg_progress_step →
      (extract_entities cfg frs plan []).toOption.map
        (fun r => (r.progressCalls, r.returnValue)) = some ([0], 0)) := by
  constructor
  · intro cfg frs plan outs r _ h hM
    have htr := runEvents_outcomes_progress cfg outs (initState frs plan) r h
    rw [htr]
    simp only [initState, Nat.zero_add, hM]
    rw [List.getLast?_append_cons]
    rfl
  · intro cfg frs plan _
    simp [extract_entities, runEvents, finishRun, initState, Except.toOption]

/-- Witness for C10: a two-outcome stream at step 2 ends with a final
increment of 0, and the empty stream yields exactly one call with
increment 0 and status 0. -/
theorem progress_remainder_zero_witness :
    ((extract_entities cfg22 [] []
        ([okOutcome "a" 1 [], okOutcome "a" 2 []].map
          PoolEvent.outcome)).toOption.map
      (fun r => r.progressCalls.getLast?)) = some (some 0) ∧
    (extract_entities cfg22 [] [] []).toOption.map
      (fun r => (r.progressCalls, r.returnValue)) = some ([0], 0) := by
  constructor
  · rcases hr : extract_entities cfg22 [] []
        ([okOutcome "a" 1 [], okOutcome "a" 2 []].map PoolEvent.outcome)
        with e | r
    · have hok : (extract_entities cfg22 [] []
          ([okOutcome "a" 1 [], okOutcome "a" 2 []].map
            PoolEvent.outcome)).toOption.isSome = true := by decide
      rw [hr] at hok
      simp [Except.toOption] at hok
    · have hc := progress_remainder_zero.1 cfg22 [] []
        [okOutcome "a" 1 [], okOutcome "a" 2 []] r (by decide) hr (by decide)
      simp [Except.toOption, hc]
  · exact progress_remainder_zero.2 cfg22 [] [] (by decide)

/-- Claim C4: if the controller observes the interrupt while outcomes are
being consumed, `extract_entities` terminates the workers, joins the pool,
skips the final staging of the remaining buffered entities, and returns 1;
on normal completion (fully drained stream) it performs the final staging
and returns 0 — in both cases an integer status, not an exception. -/
theorem extract_entities_cancellation_status :
    (∀ (cfg : Config) (frs : List FileReport) (plan : List Bool)
        (outs : List (MsgRecord × Option String)) (post : List PoolEvent)
        (r : RunResult),
      extract_entities cfg frs plan
          (outs.map PoolEvent.outcome ++ PoolEvent.interrupt :: post) =
        Except.ok r →
      r.returnValue = 1 ∧ r.poolTerminated = true ∧ r.poolJoined = true ∧
        r.finalStagePerformed = false) ∧
    (∀ (cfg : Config) (frs : List FileReport) (plan : List Bool)
        (outs : List (MsgRecord × Option String)) (r : RunResult),
      extract_entities cfg frs plan (outs.map PoolEvent.outcome) =
        Except.ok r →
      r.returnValue = 0 ∧ r.finalStagePerformed = true) := by
  constructor
  · intro cfg frs plan outs post r h
    exact runEvents_interrupt_status cfg outs _ post r h
  · intro cfg frs plan outs r h
    exact runEvents_outcomes_status cfg outs _ r h

/-- Witness for C4: an interrupt after one buffered entity yields status 1
with the pool terminated and joined and no final staging; the same stream
without the interrupt yields status 0 with the final staging done. -/
theorem extract_entities_cancellation_status_witness :
    ((extract_entities cfg22 [] []
        ([okOutcome "a" 1 [("x", "PER")]].map PoolEvent.outcome ++
          PoolEvent.interrupt :: [])).toOption.map
      (fun r => (r.returnValue, r.poolTerminated, r.poolJoined,
        r.finalStagePerformed))) = some (1, true, true, false) ∧
    ((extract_entities cfg22 [] []
        ([okOutcome "a" 1 [("x", "PER")]].map PoolEvent.outcome)).toOption.map
      (fun r => (r.returnValue, r.finalStagePerformed))) =
      some (0, true) := by
  constructor
  · rcases hr : extract_entities cfg22 [] []
        ([okOutcome "a" 1 [("x", "PER")]].map PoolEvent.outcome ++
          PoolEvent.interrupt :: []) with e | r
    · have hok : (extract_entities cfg22 [] []
          ([okOutcome "a" 1 [("x", "PER")]].map PoolEvent.outcome ++
            PoolEvent.interrupt :: [])).toOption.isSome = true := by decide
      rw [hr] at hok
      simp [Except.toOption] at hok
    · have hc := extract_entities_cancellation_status.1 cfg22 [] []
        [okOutcome "a" 1 [("x", "PER")]] [] r hr
      simp [Except.toOption, hc.1, hc.2.1, hc.2.2.1, hc.2.2.2]
  · rcases hr : extract_entities cfg22 [] []
        ([okOutcome "a" 1 [("x", "PER")]].map PoolEvent.outcome) with e | r
    · have hok : (extract_entities cfg22 [] []
          ([okOutcome "a" 1 [("x", "PER")]].map
            PoolEvent.outcome)).toOption.isSome = true := by decide
      rw [hr] at hok
      simp [Except.toOption] at hok
    · have hc := extract_entities_cancellation_status.2 cfg22 [] []
        [okOutcome "a" 1 [("x", "PER")]] r hr
      simp [Except.toOption, hc.1, hc.2]

/-- Claim C5: an outcome with a truthy error slot only advances the
`enumerate` counter (so the progress remainder still counts it) and
appends the two skip log lines; the session, the entity buffer, the
progress trace, the commit counter and the commit plan are untouched — no
Message, Attachment or Entity record is created — and the loop continues
with the rest of the stream. -/
theorem error_outcome_skip (cfg : Config) (st : LoopState) (res : MsgRecord)
    (e : String) (rest : List PoolEvent) (he : e ≠ "") :
    stepOutcome cfg st res (some e) =
      Except.ok
        { st with
          msg_count := st.msg_count + 1
          logs := st.logs ++
            [LogEntry.infoSkipMessage res.message_id res.filepath,
             LogEntry.debugMessageError res.filepath res.message_id e] } ∧
    runEvents cfg st (PoolEvent.outcome (res, some e) :: rest) =
      runEvents cfg
        { st with
          msg_count := st.msg_count + 1
          logs := st.logs ++
            [LogEntry.infoSkipMessage res.message_id res.filepath,
             LogEntry.debugMessageError res.filepath res.message_id e] }
        rest := by
  have htr : truthy (some e) = true := by simp [truthy, he]
  have hstep : stepOutcome cfg st res (some e) =
      Except.ok
        { st with
          msg_count := st.msg_count + 1
          logs := st.logs ++
            [LogEntry.infoSkipMessage res.message_id res.filepath,
             LogEntry.debugMessageError res.filepath res.message_id e] } := by
    simp [stepOutcome, htr, skipState]
  refine ⟨hstep, ?_⟩
  simp only [runEvents, hstep]

/-- Witness for C5 at a concrete state and a concrete truthy error. -/
theorem error_outcome_skip_witness :
    stepOutcome cfg22 (initState [] []) ((errOutcome "a" 7 "boom").1)
        (some "boom") =
      Except.ok
        { initState [] [] with
          msg_count := 1
          logs :=
            [LogEntry.infoSkipMessage 7 "a",
             LogEntry.debugMessageError "a" 7 "boom"] } ∧
    runEvents cfg22 (initState [] [])
        (PoolEvent.outcome ((errOutcome "a" 7 "boom").1, some "boom") :: []) =
      runEvents cfg22
        { initState [] [] with
          msg_count := 1
          logs :=
            [LogEntry.infoSkipMessage 7 "a",
             LogEntry.debugMessageError "a" 7 "boom"] } [] := by
  have h := error_outcome_skip cfg22 (initState [] [])
    ((errOutcome "a" 7 "boom").1) "boom" [] (by decide)
  exact ⟨h.1, h.2⟩

/-- Equation for `commitFlush` when the next commit is bound to fail: the
buffer is staged, the buffer variable is reset, the commit is attempted
(consuming the oracle entry), the exception is logged and the session is
rolled back. -/
theorem commitFlush_fail {st : LoopState} {restPlan : List Bool}
    (hp : st.failPlan = false :: restPlan) :
    commitFlush st =
      { st with
        session := sessionRollback
          { st.session with
            pendingEntities := st.session.pendingEntities ++ st.new_entities }
        new_entities := []
        commitCount := st.commitCount + 1
        failPlan := restPlan
        logs := st.logs ++ [LogEntry.exceptionCommit] } := by
  simp [commitFlush, hp]

/-- Claim C6: when the batch-threshold flush's commit fails, the exception
is logged and the session rolled back: every pending record is discarded,
previously committed rows are untouched, the buffer is left empty, the
oracle entry is consumed by that single commit attempt (no retry), and the
loop continues with the rest of the stream. -/
theorem commit_failure_rollback (cfg : Config) (st : LoopState)
    (res : MsgRecord) (es : List (String × String)) (rest : List PoolEvent)
    (restPlan : List Bool)
    (hent : res.entities = some es)
    (hthr : cfg.db_commit_batch_size ≤ st.new_entities.length + es.length)
    (hplan : st.failPlan = false :: restPlan) :
    ∃ st', stepOutcome cfg st res none = Except.ok st' ∧
      st'.new_entities = [] ∧
      st'.session.pendingMessages = [] ∧
      st'.session.pendingAttachments = [] ∧
      st'.session.pendingEntities = [] ∧
      st'.session.committedMessages = st.session.committedMessages ∧
      st'.session.committedAttachments = st.session.committedAttachments ∧
      st'.session.committedEntities = st.session.committedEntities ∧
      st'.commitCount = st.commitCount + 1 ∧
      st'.failPlan = restPlan ∧
      LogEntry.exceptionCommit ∈ st'.logs ∧
      runEvents cfg st (PoolEvent.outcome (res, none) :: rest) =
        runEvents cfg st' rest := by
  have hcond : cfg.db_commit_batch_size ≤
      (addRecords st res es).new_entities.length := by
    rw [addRecords_new_entities_length]
    exact hthr
  have hplan' : (addRecords st res es).failPlan = false :: restPlan := by
    rw [addRecords_failPlan]
    exact hplan
  have hstep : stepOutcome cfg st res none =
      Except.ok (progressUpdate cfg (commitFlush (addRecords st res es))) := by
    simp only [stepOutcome, truthy, Bool.false_eq_true, if_false, hent,
      maybeCommit, hcond, if_true, if_pos hcond]
  refine ⟨progressUpdate cfg (commitFlush (addRecords st res es)), hstep,
    ?_, ?_, ?_, ?_, ?_, ?_, ?_, ?_, ?_, ?_, ?_⟩
  · rw [progressUpdate_new_entities, commitFlush_fail hplan']
  · rw [progressUpdate_session, commitFlush_fail hplan']
    simp [sessionRollback]
  · rw [progressUpdate_session, commitFlush_fail hplan']
    simp [sessionRollback]
  · rw [progressUpdate_session, commitFlush_fail hplan']
    simp [sessionRollback]
  · rw [progressUpdate_session, commitFlush_fail hplan']
    simp [sessionRollback, addRecords]
  · rw [progressUpdate_session, commitFlush_fail hplan']
    simp [sessionRollback, addRecords]
  · rw [progressUpdate_session, commitFlush_fail hplan']
    simp [sessionRollback, addRecords]
  · rw [progressUpdate_commitCount, commitFlush_fail hplan',
      addRecords_commitCount]
  · rw [progressUpdate_failPlan, commitFlush_fail hplan']
  · rw [progressUpdate_logs, commitFlush_fail hplan']
    simp
  · simp only [runEvents, hstep]

/-- Witness for C6: threshold 2 reached with a failing first commit — the
batch is dropped, the buffer and pending sets come out empty, the commit
counter advances once, and the run goes on. -/
theorem commit_failure_rollback_witness :
    (stepOutcome cfg22 (initState [] [false])
        ((okOutcome "a" 1 [("x", "PER"), ("y", "ORG")]).1) none).toOption.map
      (fun st' =>
        (st'.new_entities.length, st'.session.pendingMessages.length,
         st'.session.pendingAttachments.length,
         st'.session.pendingEntities.length,
         st'.session.committedEntities.length, st'.commitCount,
         st'.failPlan, decide (LogEntry.exceptionCommit ∈ st'.logs))) =
      some (0, 0, 0, 0, 0, 1, [], true) := by
  obtain ⟨st', hstep, h1, h2, h3, h4, h5, h6, h7, h8, h9, h10, h11⟩ :=
    commit_failure_rollback cfg22 (initState [] [false])
      ((okOutcome "a" 1 [("x", "PER"), ("y", "ORG")]).1)
      [("x", "PER"), ("y", "ORG")] [] [] (by decide) (by decide) (by decide)
  rw [hstep]
  simp [Except.toOption, h1, h2, h3, h4, h7, h8, h9, h10, initState]

/-- Claim C8: for a successful outcome, if exactly one FileReport's path
equals the outcome's filepath the created Message is staged with its
`file_report` link set to that FileReport; if the lookup finds zero or
multiple matches (`.one()` raises), the link is `None`, the event is
logged at info level, and processing continues with the next outcome. -/
theorem file_report_link_resolution (cfg : Config) (st : LoopState)
    (res : MsgRecord) (es : List (String × String)) (rest : List PoolEvent)
    (hent : res.entities = some es) :
    (∀ fr : FileReport,
      st.session.fileReports.filter (fun f => f.path == res.filepath) =
        [fr] →
      (addRecords st res es).session.pendingMessages =
        st.session.pendingMessages ++
          [{ pff_identifier := res.message_id
             processing_start_time := res.processing_start_time
             processing_end_time := res.processing_end_time
             file_report := some fr }]) ∧
    ((st.session.fileReports.filter
        (fun f => f.path == res.filepath)).length ≠ 1 →
      (addRecords st res es).session.pendingMessages =
        st.session.pendingMessages ++
          [{ pff_identifier := res.message_id
             processing_start_time := res.processing_start_time
             processing_end_time := res.processing_end_time
             file_report := none }] ∧
      (∃ exc, LogEntry.infoLinkFailure res.message_id exc ∈
        (addRecords st res es).logs) ∧
      ∃ st', stepOutcome cfg st res none = Except.ok st' ∧
        runEvents cfg st (PoolEvent.outcome (res, none) :: rest) =
          runEvents cfg st' rest) := by
  constructor
  · intro fr hone
    simp [addRecords, lookupFileReport, queryOne, hone]
  · intro hbad
    have hlook : lookupFileReport st.session.fileReports res.filepath =
        none ∧ ∃ exc,
          lookupLog st.session.fileReports res.filepath res.message_id =
            [LogEntry.infoLinkFailure res.message_id exc] := by
      rcases hfil : st.session.fileReports.filter
          (fun f => f.path == res.filepath) with _ | ⟨a, _ | ⟨b, l⟩⟩
      · exact ⟨by simp [lookupFileReport, queryOne, hfil],
          "NoResultFound", by simp [lookupLog, queryOne, hfil]⟩
      · exact absurd (by rw [hfil]; rfl) hbad
      · exact ⟨by simp [lookupFileReport, queryOne, hfil],
          "MultipleResultsFound", by simp [lookupLog, queryOne, hfil]⟩
    obtain ⟨hfr, exc, hlog⟩ := hlook
    refine ⟨by simp [addRecords, hfr], ⟨exc, ?_⟩, ?_⟩
    · simp [addRecords, hlog]
    · have hstep : stepOutcome cfg st res none =
          Except.ok (progressUpdate cfg (maybeCommit cfg
            (addRecords st res es))) := by
        simp [stepOutcome, truthy, hent]
      exact ⟨progressUpdate cfg (maybeCommit cfg (addRecords st res es)),
        hstep, by simp only [runEvents, hstep]⟩

/-- Witness for C8: a matching single FileReport yields a linked Message;
with an empty FileReport table the link is null, the failure is logged,
and the loop keeps going. -/
theorem file_report_link_resolution_witness :
    ((addRecords
        { initState [{ rid := 5, path := "a" }] [] with
          session := (initState [{ rid := 5, path := "a" }] []).session }
        ((okOutcome "a" 1 [("x", "PER")]).1)
        [("x", "PER")]).session.pendingMessages =
      [] ++
        [{ pff_identifier := 1, processing_start_time := 0,
           processing_end_time := some 1,
           file_report := some { rid := 5, path := "a" } }]) ∧
    ((addRecords (initState [] []) ((okOutcome "a" 1 [("x", "PER")]).1)
        [("x", "PER")]).session.pendingMessages =
      [] ++
        [{ pff_identifier := 1, processing_start_time := 0,
           processing_end_time := some 1, file_report := none }]) := by
  constructor
  · exact (file_report_link_resolution cfg22
      (initState [{ rid := 5, path := "a" }] [])
      ((okOutcome "a" 1 [("x", "PER")]).1) [("x", "PER")] []
      (by decide)).1 { rid := 5, path := "a" } (by decide)
  · exact ((file_report_link_resolution cfg22 (initState [] [])
      ((okOutcome "a" 1 [("x", "PER")]).1) [("x", "PER")] []
      (by decide)).2 (by decide)).1

/-- Claim C7, counterexample: with threshold B = 2 and a single message
producing 4 = 2·B entities, the claim predicts exactly k = 2 commits; but
the threshold is only checked once per message and the flush commits the
whole buffer, so only one commit occurs. -/
theorem batch_atomicity_counterexample :
    ((extract_entities cfg22 [] []
        [PoolEvent.outcome (okOutcome "a" 1
          [("x", "PER"), ("y", "ORG"), ("z", "LOC"), ("w", "GPE")])]).toOption.map
      (fun r => r.commitCount)) = some 1 ∧
    totalEntityPairs [okOutcome "a" 1
      [("x", "PER"), ("y", "ORG"), ("z", "LOC"), ("w", "GPE")]] = 2 * 2 ∧
    (1 : Nat) ≠ 2 :=
  ⟨by decide, by decide, by decide⟩

/-- Claim C7 (amended): for a positive threshold B, in a fully drained run
with no commit failures in which exactly k·B entities (k ≥ 1) were
successfully buffered, the number of commits c satisfies 1 ≤ c ≤ k (it can
be less than k because a flush commits the whole buffer, which may exceed
B), every commit persisted at least B entity rows (together with the
messages and attachments staged since the previous commit), and all k·B
entity rows are accounted for: committed plus staged-pending. -/
theorem batch_atomicity_bounds (cfg : Config) (frs : List FileReport)
    (plan : List Bool) (outs : List (MsgRecord × Option String))
    (r : RunResult) (k : Nat)
    (hB : 0 < cfg.db_commit_batch_size)
    (hwf : ∀ o ∈ outs, WFOutcome o)
    (hplan : ∀ b ∈ plan, b = true)
    (hk : 1 ≤ k)
    (hsum : totalEntityPairs outs = k * cfg.db_commit_batch_size)
    (h : extract_entities cfg frs plan (outs.map PoolEvent.outcome) =
      Except.ok r) :
    1 ≤ r.commitCount ∧ r.commitCount ≤ k ∧
    cfg.db_commit_batch_size * r.commitCount ≤
      r.session.committedEntities.length ∧
    r.session.committedEntities.length + r.session.pendingEntities.length =
      k * cfg.db_commit_batch_size := by
  have hplan0 : ∀ b ∈ (initState frs plan).failPlan, b = true := by
    simpa [initState] using hplan
  have hinv0 : BatchInv cfg.db_commit_batch_size (initState frs plan) := by
    refine ⟨rfl, by simpa [initState] using hB, by simp [initState], ?_⟩
    intro _
    simp [initState]
  obtain ⟨hc, hc0, hpend⟩ :=
    runEvents_outcomes_batch cfg outs (initState frs plan) r hB hplan0
      hinv0 h
  have htally := runEvents_outcomes_tally cfg outs (initState frs plan) r
    hplan0 h
  rw [processedEntitySum_eq_totalEntityPairs outs hwf, hsum] at htally
  have htally' : r.session.committedEntities.length +
      r.session.pendingEntities.length = k * cfg.db_commit_batch_size := by
    rw [htally]
    simp [initState, entityTally]
  have hkB : cfg.db_commit_batch_size ≤ k * cfg.db_commit_batch_size :=
    Nat.le_mul_of_pos_left _ hk
  refine ⟨?_, ?_, hc, htally'⟩
  · rcases Nat.eq_zero_or_pos r.commitCount with h0 | h1
    · exfalso
      have hcz := hc0 h0
      have hpe : r.session.pendingEntities.length =
          k * cfg.db_commit_batch_size := by omega
      rw [hpe] at hpend
      exact absurd (lt_of_le_of_lt hkB hpend)
        (lt_irrefl cfg.db_commit_batch_size)
    · exact h1
  · have hcle : r.session.committedEntities.length ≤
        k * cfg.db_commit_batch_size := by omega
    have : cfg.db_commit_batch_size * r.commitCount ≤
        cfg.db_commit_batch_size * k := by
      calc cfg.db_commit_batch_size * r.commitCount ≤
          r.session.committedEntities.length := hc
        _ ≤ k * cfg.db_commit_batch_size := hcle
        _ = cfg.db_commit_batch_size * k := Nat.mul_comm k _
    exact Nat.le_of_mul_le_mul_left this hB

/-- Witness for the amended C7: four messages with one entity each at
threshold 2 — exactly 2 commits of 2 entities each, with all 4 = 2·2 rows
committed. -/
theorem batch_atomicity_bounds_witness :
    ((extract_entities cfg22 [] []
        ([okOutcome "a" 1 [("x", "PER")], okOutcome "a" 2 [("y", "ORG")],
          okOutcome "a" 3 [("z", "LOC")], okOutcome "a" 4 [("w", "GPE")]].map
          PoolEvent.outcome)).toOption.map
      (fun r => (decide (1 ≤ r.commitCount), decide (r.commitCount ≤ 2),
        decide (2 * r.commitCount ≤ r.session.committedEntities.length),
        decide (r.session.committedEntities.length +
          r.session.pendingEntities.length = 2 * 2)))) =
      some (true, true, true, true) := by
  rcases hr : extract_entities cfg22 [] []
      ([okOutcome "a" 1 [("x", "PER")], okOutcome "a" 2 [("y", "ORG")],
        okOutcome "a" 3 [("z", "LOC")], okOutcome "a" 4 [("w", "GPE")]].map
        PoolEvent.outcome) with e | r
  · have hok : (extract_entities cfg22 [] []
        ([okOutcome "a" 1 [("x", "PER")], okOutcome "a" 2 [("y", "ORG")],
          okOutcome "a" 3 [("z", "LOC")], okOutcome "a" 4 [("w", "GPE")]].map
          PoolEvent.outcome)).toOption.isSome = true := by decide
    rw [hr] at hok
    simp [Except.toOption] at hok
  · have hc := batch_atomicity_bounds cfg22 [] []
      [okOutcome "a" 1 [("x", "PER")], okOutcome "a" 2 [("y", "ORG")],
        okOutcome "a" 3 [("z", "LOC")], okOutcome "a" 4 [("w", "GPE")]] r 2
      (by decide) (by decide) (by simp) (by decide) (by decide) hr
    have h3 : 2 * r.commitCount ≤ r.session.committedEntities.length :=
      hc.2.2.1
    have h4 : r.session.committedEntities.length +
        r.session.pendingEntities.length = 2 * 2 := hc.2.2.2
    simp [Except.toOption, hc.1, hc.2.1, h3, h4]

end Claims

end LibratomSpec
